import Mathlib

/-!
Verification of `internal/pkg/stream/ecs.go`: the ECS deployment streamer.

Strings are modelled as `List Char` (`Str`). Go's `strings.Split` with a
one-character separator is modelled by `splitOnChar`, and `strings.Contains`
by `containsList`. Go's `time.Time` is modelled as `Int` (with `Before` as
`<` and the zero time as `0`), and `map[string]bool` by the `Finset` of its
keys. Indexing a slice out of range, and closing an already-closed channel,
both panic in Go; the corresponding paths are modelled explicitly.
-/

/-- Strings modelled as lists of characters. -/
abbrev Str := List Char

/-- Model of Go `strings.Split s sep` for a one-character separator `sep`:
splits `s` into all substrings between occurrences of `sep`. The result is
always non-empty; splitting the empty string yields `[[]]`. -/
def splitOnChar (sep : Char) : Str → List Str
  | [] => [[]]
  | c :: cs =>
    match splitOnChar sep cs with
    | r :: rs => if c = sep then [] :: r :: rs else (c :: r) :: rs
    | [] => if c = sep then [[], []] else [[c]]

/-- `leadsWith needle hay` is true when `needle` is an initial segment of
`hay`; used to model substring search. -/
def leadsWith : Str → Str → Bool
  | [], _ => true
  | _ :: _, [] => false
  | a :: as, b :: bs => a == b && leadsWith as bs

/-- Model of Go `strings.Contains hay needle`: `needle` occurs as a
contiguous substring of `hay`. -/
def containsList (needle : Str) : Str → Bool
  | [] => leadsWith needle []
  | c :: cs => leadsWith needle (c :: cs) || containsList needle cs

/-- The constant `ecsPrimaryDeploymentStatus = "PRIMARY"` from `ecs.go`. -/
def ecsPrimaryDeploymentStatus : Str := "PRIMARY".data

/-- The package-level keyword list `ecsEventFailureKeywords` from `ecs.go`. -/
def ecsEventFailureKeywords : List Str :=
  ["fail".data, "unhealthy".data, "error".data, "throttle".data,
   "unable".data, "missing".data]

/-- `isFailureServiceEvent` from `ecs.go`: loops over the keyword list and
returns true at the first keyword contained in the message. -/
def isFailureServiceEvent (msg : Str) : Bool :=
  ecsEventFailureKeywords.any fun kw => containsList kw msg

/-- `parseRevisionFromTaskDefARN` from `ecs.go`:
`strings.Split(arn, "/")[1]` followed by `strings.Split(familyName, ":")[1]`.
Go panics with an index-out-of-range error when either split has fewer than
two components; that path is `none`. -/
def parseRevisionFromTaskDefARN (arn : Str) : Option Str :=
  match splitOnChar '/' arn with
  | _ :: familyName :: _ =>
    match splitOnChar ':' familyName with
    | _ :: rev :: _ => some rev
    | _ => none
  | _ => none

/-- Stated from the spec's words, for comparison with the source parser:
the revision is the substring after the last `:` that follows the last `/`
of the identifier. -/
def specRevisionLastColon (arn : Str) : Str :=
  ((splitOnChar ':' ((splitOnChar '/' arn).getLastD [])).getLastD [])

/-- `ECSDeployment` from `ecs.go`: a normalized rolling-update deployment.
Go `int` counts are modelled as `Int`. -/
structure ECSDeployment where
  Status : Str
  TaskDefRevision : Str
  DesiredCount : Int
  RunningCount : Int
  FailedCount : Int
  PendingCount : Int
  RolloutState : Str
deriving DecidableEq, Repr

/-- `ECSService` from `ecs.go`: one snapshot delivered to subscribers. -/
structure ECSService where
  Deployments : List ECSDeployment
  LatestFailureEvents : List Str
deriving DecidableEq, Repr

/-- A raw deployment record as returned by the external describe call
(`*awsecs.Deployment`). Pointer-typed fields are `Option`; `aws.XValue`
dereferences them with a zero default. -/
structure RawECSDeployment where
  Status : Option Str
  TaskDefinition : Option Str
  DesiredCount : Option Int
  RunningCount : Option Int
  FailedTasks : Option Int
  PendingCount : Option Int
  RolloutState : Option Str
deriving DecidableEq, Repr

/-- A raw service event record as returned by the describe call. Times are
modelled as `Int`, with the zero time as `0`. -/
structure RawServiceEvent where
  Id : Option Str
  Message : Option Str
  CreatedAt : Option Int
deriving DecidableEq, Repr

/-- The successful result of the external describe call (`*ecs.Service`). -/
structure RawECSService where
  Deployments : List RawECSDeployment
  Events : List RawServiceEvent
deriving DecidableEq, Repr

/-- An error returned by the external describe call. -/
structure DescribeError where
  msg : Str
deriving DecidableEq, Repr

/-- The wrapped error built by `fmt.Errorf("fetch service description: %w", err)`:
its text prepends the fixed context and it carries the underlying cause. -/
structure FetchError where
  text : Str
  cause : DescribeError
deriving DecidableEq, Repr

/-- Model of `aws.StringValue`: dereference with `""` for `nil`. -/
def awsStringValue (o : Option Str) : Str := o.getD []

/-- Model of `aws.Int64Value`: dereference with `0` for `nil`. -/
def awsInt64Value (o : Option Int) : Int := o.getD 0

/-- Model of `aws.TimeValue`: dereference with the zero time for `nil`. -/
def awsTimeValue (o : Option Int) : Int := o.getD 0

/-- The mutable state of an `ECSDeploymentStreamer`. The `done` channel is
modelled by whether it has been closed (`doneSignaled`); the
`pastEventIDs map[string]bool` by the `Finset` of its keys; subscriber
channels by identities (`Nat`). -/
structure StreamerState where
  deploymentCreationTime : Int
  doneSignaled : Bool
  subscribers : List Nat
  pastEventIDs : Finset Str
  eventsToFlush : List ECSService
deriving DecidableEq

/-- `NewECSDeploymentStreamer` from `ecs.go`: fresh state with an open done
channel, an empty ledger, no subscribers and an empty buffer. -/
def newECSDeploymentStreamer (deploymentCreationTime : Int) : StreamerState :=
  { deploymentCreationTime := deploymentCreationTime
    doneSignaled := false
    subscribers := []
    pastEventIDs := ∅
    eventsToFlush := [] }

/-- The two Go runtime panics reachable from `Fetch`. -/
inductive PanicKind where
  | indexOutOfRange
  | closeOfClosedChannel
deriving DecidableEq, Repr

/-- The outcome of one `Fetch` call: a runtime panic (carrying the streamer
state at the moment the panic unwound), an error return, or a successful
return of the next fetch time. -/
inductive FetchOutcome where
  | panic (k : PanicKind) (state : StreamerState)
  | failure (e : FetchError) (state : StreamerState)
  | success (next : Int) (state : StreamerState)
deriving DecidableEq

/-- The streamer state carried by a `FetchOutcome`. -/
def FetchOutcome.state : FetchOutcome → StreamerState
  | .panic _ s => s
  | .failure _ s => s
  | .success _ s => s

/-- The deployment loop of `Fetch` (ecs.go lines 85-102): normalizes each
raw deployment in order and, when one has status `PRIMARY` and equal
desired and running counts, closes the done channel. Parsing a malformed
task-definition identifier panics with index-out-of-range; `close` on an
already-closed channel panics. A panic aborts the loop, returning the
done-channel status at that moment. -/
def deployLoop (doneSignaled : Bool) (acc : List ECSDeployment) :
    List RawECSDeployment → Except (PanicKind × Bool) (List ECSDeployment × Bool)
  | [] => .ok (acc, doneSignaled)
  | d :: ds =>
    let status := awsStringValue d.Status
    let desiredCount := awsInt64Value d.DesiredCount
    let runningCount := awsInt64Value d.RunningCount
    match parseRevisionFromTaskDefARN (awsStringValue d.TaskDefinition) with
    | none => .error (.indexOutOfRange, doneSignaled)
    | some rev =>
      let acc := acc ++ [{ Status := status
                           TaskDefRevision := rev
                           DesiredCount := desiredCount
                           RunningCount := runningCount
                           FailedCount := awsInt64Value d.FailedTasks
                           PendingCount := awsInt64Value d.PendingCount
                           RolloutState := awsStringValue d.RolloutState }]
      if status = ecsPrimaryDeploymentStatus ∧ desiredCount = runningCount then
        if doneSignaled then .error (.closeOfClosedChannel, doneSignaled)
        else deployLoop true acc ds
      else deployLoop doneSignaled acc ds

/-- The event loop of `Fetch` (ecs.go lines 103-116): in source order, stop
at the first event created strictly before the deployment-creation time or
whose id is already in the ledger; otherwise append the message to the
failure list when it matches a failure keyword, and record the id. -/
def eventLoop (creationTime : Int) (past : Finset Str) (failureMsgs : List Str) :
    List RawServiceEvent → Finset Str × List Str
  | [] => (past, failureMsgs)
  | e :: es =>
    if awsTimeValue e.CreatedAt < creationTime then (past, failureMsgs)
    else
      let id := awsStringValue e.Id
      if id ∈ past then (past, failureMsgs)
      else
        let msg := awsStringValue e.Message
        let failureMsgs :=
          if isFailureServiceEvent msg then failureMsgs ++ [msg] else failureMsgs
        eventLoop creationTime (insert id past) failureMsgs es

/-- Modelled from the spec: the fixed poll interval
`streamerFetchIntervalDuration` is defined outside this package in the
repository; the spec fixes only that it is a constant, whose value no claim
depends on. -/
def streamerFetchIntervalDuration : Int := 4

/-- The fixed error-text context of the wrapped fetch error. -/
def fetchErrorContext : Str := "fetch service description: ".data

/-- `Fetch` from `ecs.go`, as a function of the current state, the result
of `client.Service` and the current time. On a describe error it returns
the wrapped error with the state untouched; otherwise it runs the
deployment loop (which may panic), the event loop, appends the new snapshot
to the buffer and returns `now` plus the fixed interval. -/
def fetch (s : StreamerState) (res : Except DescribeError RawECSService)
    (now : Int) : FetchOutcome :=
  match res with
  | .error err => .failure { text := fetchErrorContext ++ err.msg, cause := err } s
  | .ok out =>
    match deployLoop s.doneSignaled [] out.Deployments with
    | .error (k, d) => .panic k { s with doneSignaled := d }
    | .ok (deployments, d) =>
      let (past, failureMsgs) :=
        eventLoop s.deploymentCreationTime s.pastEventIDs [] out.Events
      .success (now + streamerFetchIntervalDuration)
        { s with doneSignaled := d
                 pastEventIDs := past
                 eventsToFlush := s.eventsToFlush ++
                   [{ Deployments := deployments, LatestFailureEvents := failureMsgs }] }

/-- The nested delivery loops of `Notify` (ecs.go lines 126-130): for each
buffered event in order, send it to each subscriber in registration order.
The returned list records the sends in the order they happen. -/
def notifyLoop (subscribers : List Nat) : List ECSService → List (Nat × ECSService)
  | [] => []
  | e :: es => subscribers.map (fun sub => (sub, e)) ++ notifyLoop subscribers es

/-- `Notify` from `ecs.go`: deliver every buffered snapshot to every
subscriber, then reset the buffer to nil. Returns the delivery sequence and
the new state. -/
def notify (s : StreamerState) : List (Nat × ECSService) × StreamerState :=
  (notifyLoop s.subscribers s.eventsToFlush, { s with eventsToFlush := [] })

/-- `Subscribe` from `ecs.go`: append a fresh channel to the subscriber
list (the channel is modelled by its identity `c`). -/
def subscribe (s : StreamerState) (c : Nat) : StreamerState :=
  { s with subscribers := s.subscribers ++ [c] }

deriving instance DecidableEq for Except

/-- One driver-visible operation on the streamer. -/
inductive Op where
  | fetchOp (res : Except DescribeError RawECSService) (now : Int)
  | notifyOp
  | subscribeOp (c : Nat)
  | closeOp
deriving DecidableEq

/-- Apply one operation: the successor state and the snapshots delivered by
that operation. `Close` closes the subscriber channels and touches none of
the modelled fields; a fetch that panics leaves the state the panic
unwound with. -/
def applyOp (s : StreamerState) : Op → StreamerState × List (Nat × ECSService)
  | .fetchOp res now => ((fetch s res now).state, [])
  | .notifyOp => ((notify s).2, (notify s).1)
  | .subscribeOp c => (subscribe s c, [])
  | .closeOp => (s, [])

/-- Run a sequence of operations, collecting every delivery in order. -/
def runTrace (s : StreamerState) : List Op → StreamerState × List (Nat × ECSService)
  | [] => (s, [])
  | op :: ops =>
    let (s1, d1) := applyOp s op
    let (s2, d2) := runTrace s1 ops
    (s2, d1 ++ d2)

/-- Stated from the spec's words, for comparison with `eventLoop`: the
index of the first event at which processing stops - the first event
created strictly before the creation time, or the first whose id is
already in the (evolving) ledger, whichever comes first in iteration
order. Equals the list length when no event stops processing. -/
def stopPoint (creationTime : Int) (past : Finset Str) : List RawServiceEvent → Nat
  | [] => 0
  | e :: es =>
    if awsTimeValue e.CreatedAt < creationTime ∨ awsStringValue e.Id ∈ past then 0
    else stopPoint creationTime (insert (awsStringValue e.Id) past) es + 1

/-- The snapshots newly appended to the buffer by one operation: the part
of the successor buffer past the old buffer's length. -/
def opNewSnapshots (s : StreamerState) (op : Op) : List ECSService :=
  ((applyOp s op).1.eventsToFlush).drop s.eventsToFlush.length

/-- All snapshots appended to the buffer over a sequence of operations. -/
def snapshotsAdded (s : StreamerState) : List Op → List ECSService
  | [] => []
  | op :: ops => opNewSnapshots s op ++ snapshotsAdded (applyOp s op).1 ops

/-- A raw deployment for the completion-signal scenario: status `PRIMARY`
with desired count equal to running count. -/
def c1Deployment : RawECSDeployment :=
  { Status := some "PRIMARY".data
    TaskDefinition := some "arn:aws:ecs:us-west-2:1111:task-definition/webapp-test-frontend:3".data
    DesiredCount := some 1
    RunningCount := some 1
    FailedTasks := some 0
    PendingCount := some 0
    RolloutState := some "COMPLETED".data }

/-- A describe result reporting the completed primary deployment. -/
def c1DescribeResult : Except DescribeError RawECSService :=
  .ok { Deployments := [c1Deployment], Events := [] }

/-- The streamer state after one `Fetch` of `c1DescribeResult` from a fresh
streamer with creation time 0: the done channel is closed and one snapshot
is buffered. -/
def c1AfterFirst : StreamerState :=
  { deploymentCreationTime := 0
    doneSignaled := true
    subscribers := []
    pastEventIDs := ∅
    eventsToFlush :=
      [{ Deployments :=
           [{ Status := "PRIMARY".data, TaskDefRevision := "3".data,
              DesiredCount := 1, RunningCount := 1, FailedCount := 0,
              PendingCount := 0, RolloutState := "COMPLETED".data }]
         LatestFailureEvents := [] }] }

/-- A well-formed raw deployment for the totality scenario. -/
def c9Deployment : RawECSDeployment :=
  { Status := some "PRIMARY".data
    TaskDefinition := some "arn:aws:ecs:us-west-2:1111:task-definition/api:7".data
    DesiredCount := some 2
    RunningCount := some 2
    FailedTasks := some 0
    PendingCount := some 0
    RolloutState := some "COMPLETED".data }

/-- A well-formed raw service event created after the creation time, with a
non-failure message. -/
def c9Event : RawServiceEvent :=
  { Id := some "e1".data
    Message := some "service api has reached a steady state.".data
    CreatedAt := some 5 }

/-- A well-formed describe result: one completed primary deployment and one
event. -/
def c9DescribeResult : Except DescribeError RawECSService :=
  .ok { Deployments := [c9Deployment], Events := [c9Event] }

/-- The streamer state after one `Fetch` of `c9DescribeResult` from a fresh
streamer with creation time 1. -/
def c9AfterFirst : StreamerState :=
  { deploymentCreationTime := 1
    doneSignaled := true
    subscribers := []
    pastEventIDs := {"e1".data}
    eventsToFlush :=
      [{ Deployments :=
           [{ Status := "PRIMARY".data, TaskDefRevision := "7".data,
              DesiredCount := 2, RunningCount := 2, FailedCount := 0,
              PendingCount := 0, RolloutState := "COMPLETED".data }]
         LatestFailureEvents := [] }] }

/-- A task-definition identifier whose family segment holds two colons. -/
def c6Arn : Str := "arn:aws:ecs:us-west-2:1111:task-definition/webapp:1:2".data

/-- The standard task-definition identifier from the spec's scenario. -/
def c7Arn : Str := "arn:aws:ecs:us-west-2:1111:task-definition/webapp-test-frontend:3".data

/-- Witness event: in window (created at 10) and not yet seen. -/
def w2e0 : RawServiceEvent :=
  { Id := some "a".data, Message := some "task failed to start".data, CreatedAt := some 10 }

/-- Witness event: created at 2, before the creation time 3. -/
def w2e1 : RawServiceEvent :=
  { Id := some "b".data, Message := some "ok".data, CreatedAt := some 2 }

/-- Witness events for the event-processing claim: the first is in window
and new, the second is older than the creation time. -/
def w2Events : List RawServiceEvent := [w2e0, w2e1]

/-- Witness ledger holding one identifier. -/
def w3Past : Finset Str := {"e1".data}

/-- Witness event whose identifier is already in `w3Past`. -/
def w3Event : RawServiceEvent :=
  { Id := some "e1".data, Message := some "unable to pull image".data, CreatedAt := some 3 }

/-- Witness streamer state with one buffered snapshot and no subscribers. -/
def w10State : StreamerState :=
  { deploymentCreationTime := 0
    doneSignaled := false
    subscribers := []
    pastEventIDs := ∅
    eventsToFlush := [{ Deployments := [], LatestFailureEvents := [] }] }

/-- Witness trace: a listener subscribes after the discarding publish, then
a publish runs. -/
def w10Ops : List Op := [.subscribeOp 0, .notifyOp]

theorem leadsWith_iff (needle hay : Str) :
    leadsWith needle hay = true ↔ ∃ t, hay = needle ++ t := by
  induction needle generalizing hay with
  | nil => simp [leadsWith]
  | cons a as ih =>
    cases hay with
    | nil => simp [leadsWith]
    | cons b bs =>
      simp only [leadsWith, Bool.and_eq_true, beq_iff_eq, ih, List.cons_append,
        List.cons.injEq]
      constructor
      · rintro ⟨rfl, t, rfl⟩
        exact ⟨t, rfl, rfl⟩
      · rintro ⟨t, rfl, rfl⟩
        exact ⟨rfl, t, rfl⟩

theorem containsList_iff (needle hay : Str) :
    containsList needle hay = true ↔ ∃ pre suf, hay = pre ++ needle ++ suf := by
  induction hay with
  | nil =>
    simp only [containsList, leadsWith_iff]
    constructor
    · rintro ⟨t, ht⟩
      exact ⟨[], t, by simpa using ht⟩
    · rintro ⟨pre, suf, h⟩
      refine ⟨suf, ?_⟩
      rcases List.append_eq_nil.mp h.symm with ⟨h1, h2⟩
      rcases List.append_eq_nil.mp h1 with ⟨h3, h4⟩
      simp_all
  | cons c cs ih =>
    simp only [containsList, Bool.or_eq_true, leadsWith_iff, ih]
    constructor
    · rintro (⟨t, ht⟩ | ⟨pre, suf, h⟩)
      · exact ⟨[], t, by simpa using ht⟩
      · exact ⟨c :: pre, suf, by simp [h]⟩
    · rintro ⟨pre, suf, h⟩
      cases pre with
      | nil => exact .inl ⟨suf, by rw [List.nil_append] at h; exact h⟩
      | cons p ps =>
        right
        rcases h with ⟨rfl, h2⟩
        exact ⟨ps, suf, by simp_all⟩

theorem parseRevision_eq_getElem (arn : Str) :
    parseRevisionFromTaskDefARN arn =
      ((splitOnChar '/' arn)[1]?).bind fun familyName =>
        (splitOnChar ':' familyName)[1]? := by
  unfold parseRevisionFromTaskDefARN
  rcases hs : splitOnChar '/' arn with _ | ⟨s0, _ | ⟨s1, srest⟩⟩
  · simp
  · simp
  · simp only [List.getElem?_cons_succ, List.getElem?_cons_zero, Option.some_bind]
    rcases ht : splitOnChar ':' s1 with _ | ⟨t0, _ | ⟨t1, trest⟩⟩ <;> simp

/-- C6 counterexample: on an identifier whose family segment holds two
colons, the parser returns the component after the first colon of that
segment, not the substring after the last colon following the last slash. -/
theorem parse_revision_not_last_colon_counterexample :
    parseRevisionFromTaskDefARN c6Arn = some "1".data ∧
    specRevisionLastColon c6Arn = "2".data ∧
    some "1".data ≠ some ("2".data : Str) := by
  refine ⟨by decide, by decide, by decide⟩

/-- C6 (amended): for every identifier with exactly one `/` and exactly one
`:` after it, the extracted revision equals the substring after the last
`:` that follows the last `/`. -/
theorem parse_revision_last_colon_amended (arn : Str)
    (h1 : (splitOnChar '/' arn).length = 2)
    (h2 : (splitOnChar ':' ((splitOnChar '/' arn).getLastD [])).length = 2) :
    parseRevisionFromTaskDefARN arn = some (specRevisionLastColon arn) := by
  obtain ⟨a, b, hab⟩ := List.length_eq_two.mp h1
  have hb : ([a, b] : List Str).getLastD [] = b := rfl
  rw [hab, hb] at h2
  obtain ⟨x, y, hxy⟩ := List.length_eq_two.mp h2
  have hy : ([x, y] : List Str).getLastD [] = y := rfl
  rw [parseRevision_eq_getElem]
  unfold specRevisionLastColon
  rw [hab, hb, hxy, hy]
  simp [hxy]

/-- C6 witness: the amended statement at the spec's scenario identifier. -/
theorem parse_revision_last_colon_amended_witness :
    (splitOnChar '/' c7Arn).length = 2 ∧
    (splitOnChar ':' ((splitOnChar '/' c7Arn).getLastD [])).length = 2 ∧
    parseRevisionFromTaskDefARN c7Arn = some (specRevisionLastColon c7Arn) :=
  ⟨by decide, by decide,
    parse_revision_last_colon_amended c7Arn (by decide) (by decide)⟩

/-- C7: the parser splits the identifier on `/`, takes the segment at index
1, splits that segment on `:` and takes the component at index 1; the
spec's scenario identifier parses to revision `"3"`. -/
theorem parse_revision_algorithm_and_example :
    parseRevisionFromTaskDefARN c7Arn = some "3".data ∧
    ∀ arn : Str, parseRevisionFromTaskDefARN arn =
      ((splitOnChar '/' arn)[1]?).bind fun familyName =>
        (splitOnChar ':' familyName)[1]? := by
  exact ⟨by decide, parseRevision_eq_getElem⟩

theorem eventLoop_eq (ct : Int) (evs : List RawServiceEvent) :
    ∀ (past : Finset Str) (msgs : List Str),
      eventLoop ct past msgs evs =
        (past ∪ ((evs.take (stopPoint ct past evs)).map
            (fun e => awsStringValue e.Id)).toFinset,
         msgs ++ ((evs.take (stopPoint ct past evs)).filter
             (fun e => isFailureServiceEvent (awsStringValue e.Message))).map
           (fun e => awsStringValue e.Message)) := by
  induction evs with
  | nil => intro past msgs; simp [eventLoop, stopPoint]
  | cons e es ih =>
    intro past msgs
    by_cases h1 : awsTimeValue e.CreatedAt < ct
    · simp [eventLoop, stopPoint, h1]
    · by_cases h2 : awsStringValue e.Id ∈ past
      · simp [eventLoop, stopPoint, h1, h2]
      · have hstop : stopPoint ct past (e :: es) =
            stopPoint ct (insert (awsStringValue e.Id) past) es + 1 := by
          simp [stopPoint, h1, h2]
        have hstep : eventLoop ct past msgs (e :: es) =
            eventLoop ct (insert (awsStringValue e.Id) past)
              (if isFailureServiceEvent (awsStringValue e.Message) then
                msgs ++ [awsStringValue e.Message] else msgs) es := by
          simp [eventLoop, h1, h2]
        rw [hstep, ih, hstop]
        by_cases h3 : isFailureServiceEvent (awsStringValue e.Message)
        · simp [h3, List.take_succ_cons, List.filter_cons, Prod.mk.injEq,
            Finset.union_insert, Finset.insert_union]
        · simp [h3, List.take_succ_cons, List.filter_cons, Prod.mk.injEq,
            Finset.union_insert, Finset.insert_union]

/-- C8: an event is classified as a failure exactly when its message has
one of the six fixed keywords as a contiguous (case-sensitive, not
whole-word) substring, and the failure messages of a poll are exactly the
messages of the events processed before the stop point that are so
classified, in processing order. -/
theorem failure_classification_iff_keyword_substring :
    (∀ msg : Str, isFailureServiceEvent msg = true ↔
      ∃ kw ∈ ecsEventFailureKeywords, ∃ pre suf, msg = pre ++ kw ++ suf) ∧
    (∀ ct past evs, (eventLoop ct past [] evs).2 =
      ((evs.take (stopPoint ct past evs)).filter
          (fun e => isFailureServiceEvent (awsStringValue e.Message))).map
        (fun e => awsStringValue e.Message)) := by
  constructor
  · intro msg
    simp only [isFailureServiceEvent, List.any_eq_true, containsList_iff]
  · intro ct past evs
    rw [eventLoop_eq]
    simp

theorem stopPoint_cons (ct : Int) (past : Finset Str) (e : RawServiceEvent)
    (es : List RawServiceEvent) :
    stopPoint ct past (e :: es) =
      if awsTimeValue e.CreatedAt < ct ∨ awsStringValue e.Id ∈ past then 0
      else stopPoint ct (insert (awsStringValue e.Id) past) es + 1 := rfl

theorem stopPoint_spec (ct : Int) :
    ∀ (evs : List RawServiceEvent) (past : Finset Str) (e' : RawServiceEvent),
      evs[stopPoint ct past evs]? = some e' →
      awsTimeValue e'.CreatedAt < ct ∨
      awsStringValue e'.Id ∈
        past ∪ ((evs.take (stopPoint ct past evs)).map
          (fun e => awsStringValue e.Id)).toFinset := by
  intro evs
  induction evs with
  | nil => intro past e' h; simp at h
  | cons e es ih =>
    intro past e' h
    by_cases hg : awsTimeValue e.CreatedAt < ct ∨ awsStringValue e.Id ∈ past
    · have h0 : stopPoint ct past (e :: es) = 0 := by
        rw [stopPoint_cons, if_pos hg]
      rw [h0] at h ⊢
      simp only [List.getElem?_cons_zero, Option.some.injEq] at h
      subst h
      rcases hg with hg | hg
      · exact .inl hg
      · exact .inr (Finset.mem_union_left _ hg)
    · have hs : stopPoint ct past (e :: es) =
          stopPoint ct (insert (awsStringValue e.Id) past) es + 1 := by
        rw [stopPoint_cons, if_neg hg]
      rw [hs] at h ⊢
      simp only [List.getElem?_cons_succ] at h
      rcases ih (insert (awsStringValue e.Id) past) e' h with h1 | h1
      · exact .inl h1
      · right
        rw [List.take_succ_cons, List.map_cons, List.toFinset_cons,
          Finset.union_insert]
        rw [Finset.insert_union] at h1
        exact h1

/-- C2: for every successful fetch, event processing takes exactly the
events before the first stop point (the first event created strictly before
the deployment-creation time, or the first whose id is already in the
evolving ledger, whichever comes first in iteration order): the poll's
failure messages are exactly the matching messages of those events in
order, the new ledger adds exactly those events' ids, every processed
event's id is recorded, and the event at the stop point (when it exists)
satisfies a stop condition, so it and everything after it is neither
recorded nor appended. -/
theorem eventLoop_stops_at_first_boundary :
    ∀ (ct : Int) (past : Finset Str) (evs : List RawServiceEvent),
      (eventLoop ct past [] evs).2 =
        ((evs.take (stopPoint ct past evs)).filter
            (fun e => isFailureServiceEvent (awsStringValue e.Message))).map
          (fun e => awsStringValue e.Message) ∧
      (eventLoop ct past [] evs).1 =
        past ∪ ((evs.take (stopPoint ct past evs)).map
          (fun e => awsStringValue e.Id)).toFinset ∧
      (∀ e ∈ evs.take (stopPoint ct past evs),
        awsStringValue e.Id ∈ (eventLoop ct past [] evs).1) ∧
      (∀ e', evs[stopPoint ct past evs]? = some e' →
        awsTimeValue e'.CreatedAt < ct ∨
        awsStringValue e'.Id ∈ (eventLoop ct past [] evs).1) := by
  intro ct past evs
  have hledger : (eventLoop ct past [] evs).1 =
      past ∪ ((evs.take (stopPoint ct past evs)).map
        (fun e => awsStringValue e.Id)).toFinset := by
    rw [eventLoop_eq]
  refine ⟨by rw [eventLoop_eq]; simp, hledger, ?_, ?_⟩
  · intro e he
    rw [hledger]
    exact Finset.mem_union_right _ (List.mem_toFinset.mpr
      (List.mem_map.mpr ⟨e, he, rfl⟩))
  · intro e' h
    rw [hledger]
    exact stopPoint_spec ct evs past e' h

/-- C2 witness: with creation time 3, the two witness events stop at index
1 (the second event is out of window); the first event is processed, its
failure message kept and its id recorded. -/
theorem eventLoop_stops_at_first_boundary_witness :
    w2e0 ∈ w2Events.take (stopPoint 3 ∅ w2Events) ∧
    awsStringValue w2e0.Id ∈ (eventLoop 3 ∅ [] w2Events).1 ∧
    w2Events[stopPoint 3 ∅ w2Events]? = some w2e1 ∧
    (awsTimeValue w2e1.CreatedAt < 3 ∨
      awsStringValue w2e1.Id ∈ (eventLoop 3 ∅ [] w2Events).1) :=
  ⟨by decide,
   (eventLoop_stops_at_first_boundary 3 ∅ w2Events).2.2.1 w2e0 (by decide),
   by decide,
   (eventLoop_stops_at_first_boundary 3 ∅ w2Events).2.2.2 w2e1 (by decide)⟩

theorem eventLoop_past_subset (ct : Int) (past : Finset Str) (msgs : List Str)
    (evs : List RawServiceEvent) : past ⊆ (eventLoop ct past msgs evs).1 := by
  rw [eventLoop_eq]
  exact Finset.subset_union_left

theorem fetch_ledger_subset (s : StreamerState)
    (res : Except DescribeError RawECSService) (now : Int) :
    s.pastEventIDs ⊆ (fetch s res now).state.pastEventIDs := by
  rcases res with err | out
  · exact fun x hx => hx
  · simp only [fetch]
    rcases hd : deployLoop s.doneSignaled [] out.Deployments with ⟨k, d⟩ | ⟨deps, d⟩
    · simp only [FetchOutcome.state]
      exact fun x hx => hx
    · rcases he : eventLoop s.deploymentCreationTime s.pastEventIDs [] out.Events
        with ⟨past, msgs⟩
      simp only [he, FetchOutcome.state]
      have hsub := eventLoop_past_subset s.deploymentCreationTime s.pastEventIDs []
        out.Events
      rw [he] at hsub
      exact hsub

theorem applyOp_ledger_subset (s : StreamerState) (op : Op) :
    s.pastEventIDs ⊆ (applyOp s op).1.pastEventIDs := by
  cases op with
  | fetchOp res now => exact fetch_ledger_subset s res now
  | notifyOp => exact fun x hx => hx
  | subscribeOp c => exact fun x hx => hx
  | closeOp => exact fun x hx => hx

theorem runTrace_ledger_subset :
    ∀ (ops : List Op) (s : StreamerState),
      s.pastEventIDs ⊆ (runTrace s ops).1.pastEventIDs := by
  intro ops
  induction ops with
  | nil => exact fun s x hx => hx
  | cons op ops ih =>
    intro s
    exact (applyOp_ledger_subset s op).trans (ih (applyOp s op).1)

/-- C3: across every sequence of operations the ledger of seen event ids
only grows, and processing an event whose id is already in the ledger
leaves the ledger (and the failure list) unchanged: membership insertion is
idempotent. -/
theorem ledger_monotone_and_idempotent :
    (∀ (s : StreamerState) (ops : List Op),
      s.pastEventIDs ⊆ (runTrace s ops).1.pastEventIDs) ∧
    (∀ (ct : Int) (past : Finset Str) (msgs : List Str)
      (e : RawServiceEvent) (es : List RawServiceEvent),
      ¬ awsTimeValue e.CreatedAt < ct → awsStringValue e.Id ∈ past →
      eventLoop ct past msgs (e :: es) = (past, msgs)) := by
  refine ⟨fun s ops => runTrace_ledger_subset ops s, ?_⟩
  intro ct past msgs e es h1 h2
  simp [eventLoop, h1, h2]

/-- C3 witness: the monotonicity statement on a concrete trace, and the
idempotence statement on a concrete already-seen event. -/
theorem ledger_monotone_and_idempotent_witness :
    (newECSDeploymentStreamer 0).pastEventIDs ⊆
      (runTrace (newECSDeploymentStreamer 0) [.subscribeOp 1]).1.pastEventIDs ∧
    ¬ awsTimeValue w3Event.CreatedAt < 0 ∧
    awsStringValue w3Event.Id ∈ w3Past ∧
    eventLoop 0 w3Past ["m".data] [w3Event] = (w3Past, ["m".data]) :=
  ⟨ledger_monotone_and_idempotent.1 (newECSDeploymentStreamer 0) [.subscribeOp 1],
   by decide, by decide,
   ledger_monotone_and_idempotent.2 0 w3Past ["m".data] w3Event []
     (by decide) (by decide)⟩

theorem notifyLoop_eq_flatMap (subs : List Nat) :
    ∀ evs : List ECSService,
      notifyLoop subs evs = evs.flatMap fun e => subs.map fun c => (c, e) := by
  intro evs
  induction evs with
  | nil => simp [notifyLoop]
  | cons e es ih => simp [notifyLoop, ih]

/-- C4: `Notify` delivers every buffered snapshot, in enqueue order, to
every registered listener in registration order; afterwards the buffer is
empty; and on an empty buffer it delivers nothing and leaves the state
unchanged. -/
theorem notify_delivers_all_in_order :
    ∀ s : StreamerState,
      (notify s).2.eventsToFlush = [] ∧
      (notify s).1 = s.eventsToFlush.flatMap
        (fun e => s.subscribers.map fun c => (c, e)) ∧
      (s.eventsToFlush = [] → notify s = ([], s)) := by
  intro s
  refine ⟨rfl, notifyLoop_eq_flatMap _ _, ?_⟩
  intro h
  have hs : { s with eventsToFlush := ([] : List ECSService) } = s := by
    cases s
    simp_all
  simp [notify, h, notifyLoop, hs]

/-- C4 witness: calling `Notify` on a fresh streamer with an empty buffer
is a no-op. -/
theorem notify_delivers_all_in_order_witness :
    (newECSDeploymentStreamer 0).eventsToFlush = [] ∧
    notify (newECSDeploymentStreamer 0) = ([], newECSDeploymentStreamer 0) :=
  ⟨rfl, (notify_delivers_all_in_order (newECSDeploymentStreamer 0)).2.2 rfl⟩

/-- C5: when the describe call fails, `Fetch` returns an error wrapping
the underlying cause and mutates nothing: ledger, buffer, completion
signal and subscriber list are all unchanged. -/
theorem fetch_error_wraps_and_preserves_state :
    ∀ (s : StreamerState) (err : DescribeError) (now : Int),
      fetch s (.error err) now =
        .failure { text := fetchErrorContext ++ err.msg, cause := err } s ∧
      (fetch s (.error err) now).state.pastEventIDs = s.pastEventIDs ∧
      (fetch s (.error err) now).state.eventsToFlush = s.eventsToFlush ∧
      (fetch s (.error err) now).state.doneSignaled = s.doneSignaled ∧
      (fetch s (.error err) now).state.subscribers = s.subscribers :=
  fun _ _ _ => ⟨rfl, rfl, rfl, rfl, rfl⟩

/-- C1 (code bug): a first `Fetch` observing the completed primary
deployment closes the done channel, and a second `Fetch` observing the same
completed deployment reaches `close` on the already-closed channel and
panics - signaling is not idempotent in the code. -/
theorem fetch_second_completion_signal_panics :
    fetch (newECSDeploymentStreamer 0) c1DescribeResult 0 =
      .success (0 + streamerFetchIntervalDuration) c1AfterFirst ∧
    c1AfterFirst.doneSignaled = true ∧
    fetch c1AfterFirst c1DescribeResult 10 =
      .panic .closeOfClosedChannel c1AfterFirst :=
  ⟨by decide, rfl, by decide⟩

/-- C9 (code bug): with fully well-formed input (a parsable task-definition
identifier, a completed primary deployment and an in-window event), the
first `Fetch` succeeds, yet a second `Fetch` on the same input panics at
the `close` of the already-closed done channel - so the in-memory
transformation after a successful describe call is not total. -/
theorem fetch_well_formed_input_panics_after_done :
    fetch (newECSDeploymentStreamer 1) c9DescribeResult 0 =
      .success (0 + streamerFetchIntervalDuration) c9AfterFirst ∧
    fetch c9AfterFirst c9DescribeResult 0 =
      .panic .closeOfClosedChannel c9AfterFirst :=
  ⟨by decide, by decide⟩

theorem notifyLoop_mem_snd (subs : List Nat) :
    ∀ (evs : List ECSService) (p : Nat × ECSService),
      p ∈ notifyLoop subs evs → p.2 ∈ evs := by
  intro evs
  induction evs with
  | nil => intro p hp; simp [notifyLoop] at hp
  | cons e es ih =>
    intro p hp
    rcases List.mem_append.mp hp with h | h
    · rcases List.mem_map.mp h with ⟨c, _, rfl⟩
      exact List.mem_cons_self _ _
    · exact List.mem_cons_of_mem _ (ih p h)

theorem fetch_buffer_extra (s : StreamerState)
    (res : Except DescribeError RawECSService) (now : Int) :
    ∃ extra, (fetch s res now).state.eventsToFlush = s.eventsToFlush ++ extra := by
  rcases res with err | out
  · exact ⟨[], by simp [fetch, FetchOutcome.state]⟩
  · simp only [fetch]
    rcases hd : deployLoop s.doneSignaled [] out.Deployments with ⟨k, d⟩ | ⟨deps, d⟩
    · exact ⟨[], by simp [FetchOutcome.state]⟩
    · rcases he : eventLoop s.deploymentCreationTime s.pastEventIDs [] out.Events
        with ⟨past, msgs⟩
      exact ⟨[{ Deployments := deps, LatestFailureEvents := msgs }],
        by simp [he, FetchOutcome.state]⟩

theorem applyOp_buffer_mem (s : StreamerState) (op : Op) :
    ∀ x ∈ (applyOp s op).1.eventsToFlush, x ∈ s.eventsToFlush ++ opNewSnapshots s op := by
  cases op with
  | fetchOp res now =>
    obtain ⟨extra, hx⟩ := fetch_buffer_extra s res now
    intro x hxm
    have hop : opNewSnapshots s (.fetchOp res now) = extra := by
      unfold opNewSnapshots
      have : (applyOp s (.fetchOp res now)).1 = (fetch s res now).state := rfl
      rw [this, hx, List.drop_left]
    rw [hop]
    have : (applyOp s (.fetchOp res now)).1 = (fetch s res now).state := rfl
    rw [this, hx] at hxm
    exact hxm
  | notifyOp => intro x hxm; simp [applyOp, notify] at hxm
  | subscribeOp c => intro x hxm; exact List.mem_append_left _ hxm
  | closeOp => intro x hxm; exact List.mem_append_left _ hxm

theorem applyOp_deliveries_mem (s : StreamerState) (op : Op) :
    ∀ p ∈ (applyOp s op).2, p.2 ∈ s.eventsToFlush := by
  cases op with
  | fetchOp res now => intro p hp; simp [applyOp] at hp
  | notifyOp =>
    intro p hp
    exact notifyLoop_mem_snd s.subscribers s.eventsToFlush p hp
  | subscribeOp c => intro p hp; simp [applyOp] at hp
  | closeOp => intro p hp; simp [applyOp] at hp

theorem runTrace_deliveries_mem :
    ∀ (ops : List Op) (s : StreamerState) (p : Nat × ECSService),
      p ∈ (runTrace s ops).2 →
      p.2 ∈ s.eventsToFlush ++ snapshotsAdded s ops := by
  intro ops
  induction ops with
  | nil => intro s p hp; simp [runTrace] at hp
  | cons op ops ih =>
    intro s p hp
    have hsplit : (runTrace s (op :: ops)).2 =
        (applyOp s op).2 ++ (runTrace (applyOp s op).1 ops).2 := rfl
    rw [hsplit] at hp
    have hadd : snapshotsAdded s (op :: ops) =
        opNewSnapshots s op ++ snapshotsAdded (applyOp s op).1 ops := rfl
    rw [hadd]
    rcases List.mem_append.mp hp with h | h
    · exact List.mem_append_left _ (applyOp_deliveries_mem s op p h)
    · rcases List.mem_append.mp (ih (applyOp s op).1 p h) with h3 | h3
      · rcases List.mem_append.mp (applyOp_buffer_mem s op _ h3) with h5 | h5
        · exact List.mem_append_left _ h5
        · exact List.mem_append_right _ (List.mem_append_left _ h5)
      · exact List.mem_append_right _ (List.mem_append_right _ h3)

/-- C10: when no listeners are registered, `Notify` delivers nothing and
empties the buffer; the discarded snapshots are lost - any snapshot
delivered by any later sequence of operations comes from a snapshot
buffered after the discarding call, never from the discarded buffer. -/
theorem notify_without_subscribers_discards :
    ∀ s : StreamerState, s.subscribers = [] →
      (notify s).1 = [] ∧
      (notify s).2.eventsToFlush = [] ∧
      ∀ (ops : List Op) (p : Nat × ECSService),
        p ∈ (runTrace (notify s).2 ops).2 →
        p.2 ∈ snapshotsAdded (notify s).2 ops := by
  intro s h
  have hloop : ∀ evs : List ECSService, notifyLoop ([] : List Nat) evs = [] := by
    intro evs
    induction evs with
    | nil => rfl
    | cons e es ih => simp [notifyLoop, ih]
  refine ⟨by simp [notify, h, hloop], rfl, ?_⟩
  intro ops p hp
  have hmem := runTrace_deliveries_mem ops (notify s).2 p hp
  simpa [notify] using hmem

/-- C10 witness: a streamer with one buffered snapshot and no listeners;
after the discarding publish, a listener subscribes and a further publish
delivers nothing not buffered later. -/
theorem notify_without_subscribers_discards_witness :
    w10State.subscribers = [] ∧
    (notify w10State).1 = [] ∧
    (notify w10State).2.eventsToFlush = [] ∧
    ∀ p : Nat × ECSService,
      p ∈ (runTrace (notify w10State).2 w10Ops).2 →
      p.2 ∈ snapshotsAdded (notify w10State).2 w10Ops :=
  ⟨rfl,
   (notify_without_subscribers_discards w10State rfl).1,
   (notify_without_subscribers_discards w10State rfl).2.1,
   fun p => (notify_without_subscribers_discards w10State rfl).2.2 w10Ops p⟩
